import Mathlib

/-!
# Verification of the PR-stats and project-sync scripts

Shallow embedding of the two CI scripts of this repository:

* `.github/scripts/get-pr-stats.js` — StatsCollector: pagination over the
  pull-request file list, aggregation of additions/deletions, and the
  "effort" score.
* `.github/scripts/log-to-project.js` — ProjectSyncer: project resolution,
  issue matching/parsing, find-or-create of the tracking issue, and
  attachment of the issue to the project.

JavaScript numbers are modelled with exact arithmetic (`ℕ`/`ℤ`/`ℝ`),
JavaScript strings with `List Char`, and the external GitHub state with an
explicit record that the operations thread through. The GraphQL/REST service
is modelled by passing its responses (or the relevant slice of external
state) to each operation explicitly.
-/

namespace BidhubSync

/-! ## Definitions

### StatsCollector: the effort score

`get-pr-stats.js` lines 63–67:

```js
const lineScore = deletions * 0.2 + additions * 1.0
const lineScoreUnit = 200
const lineScoreUnitCount = Math.floor(lineScore / lineScoreUnit)
const effort = lineScoreUnitCount * Math.sqrt(lineScoreUnit)
             + Math.sqrt(lineScore - lineScoreUnitCount * lineScoreUnit);
```

`Math.floor` is `Int.floor`, `Math.sqrt` is `Real.sqrt`, and the doubles are
modelled as exact reals. -/

/-- The `lineScore` of line 64: `deletions * 0.2 + additions * 1.0`. -/
def lineScore (additions deletions : ℕ) : ℝ :=
  (deletions : ℝ) * 0.2 + (additions : ℝ) * 1.0

/-- The `lineScoreUnit` constant of line 65. -/
def lineScoreUnit : ℝ := 200

/-- `lineScoreUnitCount` of line 66: `Math.floor(lineScore / lineScoreUnit)`. -/
noncomputable def lineScoreUnitCount (additions deletions : ℕ) : ℤ :=
  ⌊lineScore additions deletions / lineScoreUnit⌋

/-- The effort expression of line 67, as a function of the line score `s`:
`Math.floor(s / 200) * Math.sqrt(200) + Math.sqrt(s - Math.floor(s / 200) * 200)`. -/
noncomputable def effortOf (s : ℝ) : ℝ :=
  (⌊s / lineScoreUnit⌋ : ℝ) * Real.sqrt lineScoreUnit +
    Real.sqrt (s - (⌊s / lineScoreUnit⌋ : ℝ) * lineScoreUnit)

/-- The `effort` of line 67 applied to the aggregated additions/deletions. -/
noncomputable def effort (additions deletions : ℕ) : ℝ :=
  effortOf (lineScore additions deletions)

/-- The square-root argument of line 67 (`lineScore - unitCount * unit`). -/
noncomputable def effortRemainder (s : ℝ) : ℝ :=
  s - (⌊s / lineScoreUnit⌋ : ℝ) * lineScoreUnit

/-! ### StatsCollector: pagination over the PR file list

`get-pr-stats.js` lines 15–36: fetch page 1, 2, … of size 100 from
`pulls.listFiles`; stop on an empty page, or after a short page. The REST
endpoint for a pull request whose full (server-side) file list is `files`
answers page `p` with the `p`-th chunk of 100, i.e. the chunk starting at
index `(p-1)*100`; the loop below is phrased over that start index. -/

/-- One file entry of `pulls.listFiles`. The numeric fields are optional
because the script guards them with `|| 0` (lines 50–52). -/
structure PrFile where
  filename : List Char
  additions : Option Nat
  deletions : Option Nat
  changes : Option Nat
deriving DecidableEq

/-- The `perPage` constant of line 17. -/
def perPage : Nat := 100

/-- The pagination loop of lines 19–36, collecting from the chunk that
starts at index `start` (page `p` of the script is `start = (p-1)*100`):
break on an empty page (line 28), concatenate, break after a short page
(line 33), else advance to the next page. -/
def fetchFromIdx (files : List PrFile) (start : Nat) : List PrFile :=
  if ((files.drop start).take perPage).length = 0 then []
  else if ((files.drop start).take perPage).length < perPage then
    (files.drop start).take perPage
  else
    (files.drop start).take perPage ++ fetchFromIdx files (start + perPage)
termination_by files.length - start
decreasing_by
  simp only [List.length_take, List.length_drop] at *
  unfold perPage at *
  omega

/-- The aggregate record of lines 41–77 (the fields named by the spec's
zero-files requirement): `allFiles` is the collected list, `filesChanged`
its length, and the sums accumulate with the `|| 0` guard. -/
structure ChangeStats where
  filesChanged : Nat
  additions : Nat
  deletions : Nat
  totalChanges : Nat
deriving DecidableEq

/-- The statistics computed from the collected file list (lines 41–61). -/
def prStats (files : List PrFile) : ChangeStats :=
  { filesChanged := (fetchFromIdx files 0).length
  , additions := (fetchFromIdx files 0).foldl (fun a f => a + f.additions.getD 0) 0
  , deletions := (fetchFromIdx files 0).foldl (fun a f => a + f.deletions.getD 0) 0
  , totalChanges := (fetchFromIdx files 0).foldl (fun a f => a + f.changes.getD 0) 0 }

/-! ### ProjectSyncer: string parsing

The title pattern `/^PR #(\d+):/` (line 238) and the body pattern
`/\*\*Repository:\*\* (.+)/` (line 243) of `log-to-project.js`, modelled on
`List Char`. -/

/-- `parseInt` on a (most-significant-first) digit string. -/
def digitsVal (ds : List Char) : Nat :=
  ds.foldl (fun a c => 10 * a + (c.toNat - 48)) 0

/-- Decimal rendering, most significant digit first; `fuel` bounds the
recursion depth (any `fuel > n` is exact). -/
def natReprAux : Nat → Nat → List Char
  | 0, _ => []
  | fuel + 1, n =>
    if n < 10 then [Nat.digitChar n]
    else natReprAux fuel (n / 10) ++ [Nat.digitChar (n % 10)]

/-- Decimal rendering of a natural number, as the template literal `${n}`
renders a nonnegative integer (`String(0)` is `"0"`, no leading zeros). -/
def natRepr (n : Nat) : List Char := natReprAux (n + 1) n

/-- `title.match(/^PR #(\d+):/)` followed by `parseInt` of the capture
(lines 238–239). The pattern is anchored; `\d+` takes a maximal nonempty
digit run (backtracking cannot recover, since the `:` that must follow is
not a digit) and the next character must be `:`. -/
def parsePRTitle (title : List Char) : Option Nat :=
  match title with
  | 'P' :: 'R' :: ' ' :: '#' :: rest =>
    match rest.takeWhile Char.isDigit, rest.dropWhile Char.isDigit with
    | [], _ => none
    | ds, ':' :: _ => some (digitsVal ds)
    | _, _ => none
  | _ => none

/-- The literal text the body regex of line 243 requires:
`**Repository:** `. -/
def repoMarker : List Char := "**Repository:** ".data

/-- The JS regex `.`: any character except a line terminator. -/
def jsDot (c : Char) : Bool :=
  !(c = '\n' || c = '\r' || c.toNat = 8232 || c.toNat = 8233)

/-- One attempt of `/\*\*Repository:\*\* (.+)/` at the current position: the
literal marker followed by a nonempty greedy run of `.`-characters, which is
the capture. -/
def repoMatchAt (s : List Char) : Option (List Char) :=
  if repoMarker.isPrefixOf s then
    match (s.drop repoMarker.length).takeWhile jsDot with
    | [] => none
    | cap => some cap
  else none

/-- `body.match(/\*\*Repository:\*\* (.+)/)`: scan positions left to right
and return the first successful match's capture (line 243). -/
def findRepoCapture : List Char → Option (List Char)
  | [] => none
  | c :: rest =>
    match repoMatchAt (c :: rest) with
    | some cap => some cap
    | none => findRepoCapture rest

/-- `String.prototype.includes`: `jsIncludes needle hay` is true when
`needle` occurs contiguously in `hay` (scan every start position for a
prefix match). -/
def jsIncludes (needle : List Char) : List Char → Bool
  | [] => needle.isEmpty
  | c :: rest => needle.isPrefixOf (c :: rest) || jsIncludes needle rest

/-- `String.prototype.trim` whitespace, modelled on the ASCII whitespace
characters plus NBSP. -/
def jsWhitespace (c : Char) : Bool :=
  c = ' ' || c = '\t' || c = '\n' || c = '\r' || c.toNat = 11 || c.toNat = 12 ||
    c.toNat = 160

/-- `s.trim()`: strip whitespace from both ends. -/
def jsTrim (s : List Char) : List Char :=
  ((s.dropWhile jsWhitespace).reverse.dropWhile jsWhitespace).reverse

/-- Lines 243–244: `issueRepo`, the trimmed capture of the repository
marker, or `null` when the body has no match. -/
def issueRepoOf (body : List Char) : Option (List Char) :=
  (findRepoCapture body).map jsTrim

/-! ### ProjectSyncer: external entities -/

/-- A GitHub issue as the scripts see it: GraphQL node id (`id`), issue
number, title, body and assignee logins. -/
structure Issue where
  id : Nat
  number : Nat
  title : List Char
  body : List Char
  assignees : List (List Char)
deriving DecidableEq

/-- A project item: its id and its `content { ... on Issue }`, which is
`none` when the item's content is not an issue. -/
structure ProjectItem where
  itemId : Nat
  content : Option Issue
deriving DecidableEq

/-- A ProjectV2 as returned by the organization listing (lines 16–22). -/
structure Project where
  id : Nat
  title : List Char
  number : Nat
  closed : Bool
deriving DecidableEq

/-- Failures of `findProject`: the empty-listing error of lines 52–59, and
the no-match error of lines 76–79. -/
inductive FindProjectErr where
  | noProjects
  | notFound
deriving DecidableEq

/-- Lowercasing (`toLowerCase`), per character. -/
def lowerChars (s : List Char) : List Char := s.map Char.toLower

/-- `findProject` (lines 10–87) applied to the organization's project
listing: after the empty-listing check (line 52), try an exact title match
(line 64), else a case-insensitive match (line 68), else a substring match
(line 73), each taking the first hit in listing order; fail with the
not-found error when none matches (line 76–79). A closed project only logs
a warning (lines 81–83) and is returned like any other. -/
def findProject (projects : List Project) (projectName : List Char) :
    Except FindProjectErr Project :=
  if projects.isEmpty then Except.error FindProjectErr.noProjects
  else
    match projects.find? (fun p => decide (p.title = projectName)) with
    | some p => Except.ok p
    | none =>
      match projects.find? (fun p => decide (lowerChars p.title = lowerChars projectName)) with
      | some p => Except.ok p
      | none =>
        match projects.find? (fun p => jsIncludes (lowerChars projectName) (lowerChars p.title)) with
        | some p => Except.ok p
        | none => Except.error FindProjectErr.notFound

/-! ### ProjectSyncer: finding the existing issue in the project -/

/-- The per-item check of the scan loop of `findExistingIssueInProject`
(lines 236–260): the item matches when it has issue content with a truthy
(nonempty) title whose leading `PR #<digits>:` parses to `prNumber`, and
whose body's `**Repository:** ` capture, trimmed, equals `repository`
(a body without the marker gives `issueRepo = null`, which never equals
the repository string — the skip of lines 255–259). -/
def itemMatches (item : ProjectItem) (prNumber : Nat) (repository : List Char) : Bool :=
  match item.content with
  | none => false
  | some iss =>
    if iss.title.isEmpty then false
    else
      match parsePRTitle iss.title with
      | some k => decide (k = prNumber) && decide (issueRepoOf iss.body = some repository)
      | none => false

/-- The matching condition as the spec words it (Step C.1): the title
parses as `PR #<number>:` with the parsed number equal to the target, and
the body contains a `**Repository:** <name>` line whose name equals the
target repository. Stated from the spec, for comparison with
`itemMatches`. -/
def specItemMatch (item : ProjectItem) (prNumber : Nat) (repository : List Char) : Prop :=
  ∃ iss, item.content = some iss ∧ parsePRTitle iss.title = some prNumber ∧
    issueRepoOf iss.body = some repository

/-- One page of the project-items GraphQL query (lines 188–212). -/
structure ItemsPage where
  nodes : List ProjectItem
  hasNextPage : Bool
deriving DecidableEq

/-- `findExistingIssueInProject` (lines 185–271) against a prescribed
sequence of GraphQL responses, each either a thrown error or a page. The
`while (hasNextPage)` loop consumes responses in order, checking each
page's items as fetched and returning the first match (lines 236–254); a
throw anywhere is caught by the surrounding `try` and the function returns
`null` (lines 266–270). An exhausted response list while the loop still
expects a page is the fetch itself failing, i.e. a throw (also `null`). -/
def findExistingIssueInProject (responses : List (Except Unit ItemsPage))
    (prNumber : Nat) (repository : List Char) : Option (Issue × Nat) :=
  match responses with
  | [] => none
  | Except.error _ :: _ => none
  | Except.ok pg :: rest =>
    match pg.nodes.find? (fun it => itemMatches it prNumber repository) with
    | some it => it.content.map (fun iss => (iss, it.itemId))
    | none =>
      if pg.hasNextPage then findExistingIssueInProject rest prNumber repository
      else none

/-- The loop state of the cursor pagination of lines 215–231: accumulated
items, the cursor to send next, and the `hasNextPage` flag. -/
structure CursorLoopState where
  allItems : List ProjectItem
  cursor : Option (List Char)
  hasNextPage : Bool
deriving DecidableEq

/-- One GraphQL response to the items query: nodes plus `pageInfo`. -/
structure CursorPage where
  nodes : List ProjectItem
  hasNextPage : Bool
  endCursor : Option (List Char)
deriving DecidableEq

/-- One iteration of the `while (hasNextPage)` loop of lines 220–263, with
the service modelled as a function from the request cursor to the response.
`Sum.inl r` means the loop ends this iteration with result `r` (loop
condition false, or a match returned from inside the loop); `Sum.inr st`
means another iteration follows with state `st`. The body accumulates the
page (line 228), takes `hasNextPage` and `endCursor` from `pageInfo`
(lines 230–231) and checks the fetched items (lines 236–260). There is no
check that the cursor advanced. -/
def cursorLoopStep (service : Option (List Char) → CursorPage)
    (st : CursorLoopState) (prNumber : Nat) (repository : List Char) :
    (Option (Issue × Nat)) ⊕ CursorLoopState :=
  if st.hasNextPage = false then Sum.inl none
  else
    match (service st.cursor).nodes.find? (fun it => itemMatches it prNumber repository) with
    | some it => Sum.inl (it.content.map (fun iss => (iss, it.itemId)))
    | none =>
      Sum.inr
        { allItems := st.allItems ++ (service st.cursor).nodes
        , cursor := (service st.cursor).endCursor
        , hasNextPage := (service st.cursor).hasNextPage }

/-- A service that never signals completion: every response has
`hasNextPage: true` with the same (non-advancing) cursor `"c0"` and no
items. -/
def stuckService : Option (List Char) → CursorPage := fun _ =>
  { nodes := [], hasNextPage := true, endCursor := some ['c', '0'] }

/-- The loop state reached after the first iteration against
`stuckService`, with the non-advancing cursor `"c0"`. -/
def stuckState : CursorLoopState :=
  { allItems := [], cursor := some ['c', '0'], hasNextPage := true }

/-! ### ProjectSyncer: issue texts -/

/-- The canonical issue title `PR #<number>: <PR title>` set in all three
branches of `findOrCreateIssue` (lines 301, 329, 356). -/
def mkIssueTitle (prNumber : Nat) (prTitle : List Char) : List Char :=
  'P' :: 'R' :: ' ' :: '#' :: (natRepr prNumber ++ ':' :: ' ' :: prTitle)

/-- `createIssueBody` (lines 276–290). `effortText` and `weightText` stand
for the number-to-string renderings of the `${effort}` and `${weight}`
interpolations, which the claims never need to inspect. -/
def createIssueBody (prNumber : Nat) (prUrl repository prAuthor : List Char)
    (stats : ChangeStats) (effortText weightText : List Char) : List Char :=
  "**PR:** #".data ++ natRepr prNumber ++
    "\n**PR Link:** ".data ++ prUrl ++
    "\n\n**Repository:** ".data ++ repository ++
    "\n**Author:** @".data ++ prAuthor ++
    "\n\n**Stats:**\n- Files Changed: ".data ++ natRepr stats.filesChanged ++
    "\n- Additions: +".data ++ natRepr stats.additions ++
    "\n- Deletions: -".data ++ natRepr stats.deletions ++
    "\n- Total Changes: ".data ++ natRepr stats.totalChanges ++
    "\n- **Weight: ".data ++ weightText ++
    "**\n- **Effort: ".data ++ effortText ++ "**".data

/-! ### ProjectSyncer: the external state and the reconciliation steps

The slice of GitHub state the scripts mutate: the repository's issues and
the project's items. Step E (field values) writes neither, so it is not
part of this record. -/

/-- The external state: the repository's issues in creation order, the
project's items as (item id, issue node id) links, and the id/number
counters the service would assign next. -/
structure GhState where
  issues : List Issue
  items : List (Nat × Nat)
  nextIssueId : Nat
  nextIssueNumber : Nat
  nextItemId : Nat
deriving DecidableEq

/-- The state before any run: no issues, no items. -/
def emptyGhState : GhState :=
  { issues := [], items := [], nextIssueId := 0, nextIssueNumber := 1, nextItemId := 0 }

/-- The project-items listing the GraphQL query of lines 188–212 returns
for a state: each link resolved to its issue content. -/
def listProjectItems (s : GhState) : List ProjectItem :=
  s.items.map (fun link =>
    { itemId := link.1, content := s.issues.find? (fun i => decide (i.id = link.2)) })

/-- The search of lines 322–327: `"PR #<n>:" in:title` over the
repository's issues, first hit in listing order. The quoted phrase is
modelled as a substring test on the title. -/
def searchNeedle (n : Nat) : List Char :=
  'P' :: 'R' :: ' ' :: '#' :: (natRepr n ++ [':'])

/-- `search.issuesAndPullRequests` of line 324 followed by taking
`items[0]` (line 327). -/
def searchIssue (s : GhState) (n : Nat) : Option Issue :=
  (s.issues.filter (fun i => jsIncludes (searchNeedle n) i.title)).head?

/-- `issues.update` (lines 303–310 / 331–338): set title, body and
assignees of the issue with the given number. -/
def updateIssue (s : GhState) (number : Nat) (title body : List Char)
    (assignees : List (List Char)) : GhState :=
  { s with
    issues := s.issues.map (fun i =>
      if i.number = number then
        { i with title := title, body := body, assignees := assignees }
      else i) }

/-- `issues.create` (lines 353–359): append a fresh issue. -/
def createIssue (s : GhState) (title body : List Char)
    (assignees : List (List Char)) : GhState × Issue :=
  let iss : Issue :=
    { id := s.nextIssueId, number := s.nextIssueNumber, title := title
    , body := body, assignees := assignees }
  ({ s with
      issues := s.issues ++ [iss]
    , nextIssueId := s.nextIssueId + 1
    , nextIssueNumber := s.nextIssueNumber + 1 }, iss)

/-- The pull-request event inputs the main function extracts
(lines 556–567). -/
structure PrInput where
  number : Nat
  title : List Char
  url : List Char
  author : List Char
  repo : List Char

/-- The record `findOrCreateIssue` returns (lines 313–318 / 341–346 /
362–367). -/
structure FindOrCreateResult where
  issueId : Nat
  issueNumber : Nat
  itemId : Option Nat
  isNew : Bool
deriving DecidableEq

/-- `findOrCreateIssue` (lines 295–368): Step C.1, the project listing
(consumed through the prescribed GraphQL responses `listing`); else Step
C.2, the repository search; else Step C.3, creation. Every branch writes
the canonical title, the canonical body and the `[prAuthor]` assignee
list. -/
def findOrCreateIssue (s : GhState) (pr : PrInput) (stats : ChangeStats)
    (effortText weightText : List Char)
    (listing : List (Except Unit ItemsPage)) : GhState × FindOrCreateResult :=
  match findExistingIssueInProject listing pr.number pr.repo with
  | some found =>
    (updateIssue s found.1.number (mkIssueTitle pr.number pr.title)
        (createIssueBody pr.number pr.url pr.repo pr.author stats effortText weightText)
        [pr.author],
     { issueId := found.1.id, issueNumber := found.1.number
     , itemId := some found.2, isNew := false })
  | none =>
    match searchIssue s pr.number with
    | some repoIssue =>
      (updateIssue s repoIssue.number (mkIssueTitle pr.number pr.title)
          (createIssueBody pr.number pr.url pr.repo pr.author stats effortText weightText)
          [pr.author],
       { issueId := repoIssue.id, issueNumber := repoIssue.number
       , itemId := none, isNew := false })
    | none =>
      let created := createIssue s (mkIssueTitle pr.number pr.title)
          (createIssueBody pr.number pr.url pr.repo pr.author stats effortText weightText)
          [pr.author]
      (created.1,
       { issueId := created.2.id, issueNumber := created.2.number
       , itemId := none, isNew := true })

/-- `addIssueToProject` (lines 373–404): reuse the known item id
(lines 374–377); otherwise run the add mutation, which links the issue and
returns the fresh item id, or returns `null` when the mutation throws
(lines 400–403, modelled by `mutationOk = false`). -/
def addIssueToProject (s : GhState) (issueId : Nat) (existingItemId : Option Nat)
    (mutationOk : Bool) : GhState × Option Nat :=
  match existingItemId with
  | some itemId => (s, some itemId)
  | none =>
    if mutationOk then
      ({ s with
          items := s.items ++ [(s.nextItemId, issueId)],
          nextItemId := s.nextItemId + 1 },
       some s.nextItemId)
    else (s, none)

/-- Steps C and D of one ProjectSyncer run (main function, lines 588–602),
with the project-items listing answered from the current state in one page.
Step E (field-value updates) writes no issue and no item, so the state
after the run is the state after Step D. -/
def runSync (s : GhState) (pr : PrInput) (stats : ChangeStats)
    (effortText weightText : List Char) (mutationOk : Bool) : GhState :=
  let r := findOrCreateIssue s pr stats effortText weightText
      [Except.ok { nodes := listProjectItems s, hasNextPage := false }]
  (addIssueToProject r.1 r.2.issueId r.2.itemId mutationOk).1

/-- An issue that encodes the composite key (`prNumber`, `repository`):
its title parses back to the number and its body names the repository —
exactly the per-issue part of the Step C.1 match. -/
def isTrackingIssue (i : Issue) (prNumber : Nat) (repository : List Char) : Bool :=
  decide (parsePRTitle i.title = some prNumber) &&
    decide (issueRepoOf i.body = some repository)

/-- How many issues of the state encode the key. -/
def trackingIssueCount (s : GhState) (prNumber : Nat) (repository : List Char) : Nat :=
  (s.issues.filter (fun i => isTrackingIssue i prNumber repository)).length

/-- How many project items of the state carry an issue that encodes the
key. -/
def trackingItemCount (s : GhState) (prNumber : Nat) (repository : List Char) : Nat :=
  ((listProjectItems s).filter (fun it => itemMatches it prNumber repository)).length

/-- One final page wrapping a node list: the single successful response a
project-items listing yields when everything fits in one page. -/
def singlePage (nodes : List ProjectItem) : Except Unit ItemsPage :=
  Except.ok { nodes := nodes, hasNextPage := false }

/-- The issue the first run from the empty state creates: node id 0, issue
number 1, canonical title/body, the author assigned. Used to state and
prove the reconciliation invariant. -/
def firstIssue (pr : PrInput) (stats : ChangeStats) (eT wT : List Char) : Issue :=
  { id := 0
  , number := 1
  , title := mkIssueTitle pr.number pr.title
  , body := createIssueBody pr.number pr.url pr.repo pr.author stats eT wT
  , assignees := [pr.author] }

/-- The external state after one run from the empty state: exactly the one
tracking issue, attached to the project by exactly one item. -/
def stateAfterFirstRun (pr : PrInput) (stats : ChangeStats) (eT wT : List Char) : GhState :=
  { issues := [firstIssue pr stats eT wT]
  , items := [(0, 0)]
  , nextIssueId := 1
  , nextIssueNumber := 2
  , nextItemId := 1 }

/-! ## Theorems -/

/-! ### List and digit helpers -/

lemma takeWhile_append_sat {α} (p : α → Bool) (xs : List α) (y : α) (ys : List α)
    (hall : ∀ c ∈ xs, p c = true) (hy : p y = false) :
    (xs ++ y :: ys).takeWhile p = xs ∧ (xs ++ y :: ys).dropWhile p = y :: ys := by
  induction xs with
  | nil => simp [List.takeWhile_cons, List.dropWhile_cons, hy]
  | cons a as ih =>
    have ha := hall a (by simp)
    have ih2 := ih (fun c hc => hall c (by simp [hc]))
    simp [List.takeWhile_cons, List.dropWhile_cons, ha, ih2.1, ih2.2]

lemma digitChar_isDigit {d : Nat} (h : d < 10) : (Nat.digitChar d).isDigit = true := by
  interval_cases d <;> decide

lemma digitChar_toNat {d : Nat} (h : d < 10) : (Nat.digitChar d).toNat - 48 = d := by
  interval_cases d <;> decide

lemma natReprAux_all_digits : ∀ fuel n, n < fuel →
    ∀ c ∈ natReprAux fuel n, c.isDigit = true := by
  intro fuel
  induction fuel with
  | zero => intro n hn; omega
  | succ f ih =>
    intro n hn c hc
    rw [natReprAux] at hc
    split at hc
    · simp only [List.mem_singleton] at hc
      subst hc
      exact digitChar_isDigit (by omega)
    · rw [List.mem_append] at hc
      rcases hc with hc | hc
      · exact ih (n / 10) (by omega) c hc
      · simp only [List.mem_singleton] at hc
        subst hc
        exact digitChar_isDigit (Nat.mod_lt _ (by omega))

lemma natRepr_all_digits (n : Nat) : ∀ c ∈ natRepr n, c.isDigit = true :=
  natReprAux_all_digits (n + 1) n (Nat.lt_succ_self n)

lemma natRepr_ne_nil (n : Nat) : natRepr n ≠ [] := by
  unfold natRepr
  rw [natReprAux]
  split
  · simp
  · simp

lemma digitsVal_append_one (xs : List Char) (c : Char) :
    digitsVal (xs ++ [c]) = 10 * digitsVal xs + (c.toNat - 48) := by
  unfold digitsVal
  rw [List.foldl_append]
  rfl

lemma digitsVal_natReprAux : ∀ fuel n, n < fuel →
    digitsVal (natReprAux fuel n) = n := by
  intro fuel
  induction fuel with
  | zero => intro n hn; omega
  | succ f ih =>
    intro n hn
    rw [natReprAux]
    split
    · rename_i h10
      show digitsVal [Nat.digitChar n] = n
      unfold digitsVal
      simp only [List.foldl_cons, List.foldl_nil]
      rw [Nat.mul_zero, Nat.zero_add]
      exact digitChar_toNat h10
    · rename_i h10
      rw [digitsVal_append_one, ih (n / 10) (by omega),
        digitChar_toNat (Nat.mod_lt _ (by omega))]
      omega

lemma digitsVal_natRepr (n : Nat) : digitsVal (natRepr n) = n :=
  digitsVal_natReprAux (n + 1) n (Nat.lt_succ_self n)

/-- The canonical title always parses back to its PR number. -/
lemma parse_mkIssueTitle (n : Nat) (t : List Char) :
    parsePRTitle (mkIssueTitle n t) = some n := by
  obtain ⟨c, cs, hcs⟩ : ∃ c cs, natRepr n = c :: cs := by
    cases h : natRepr n with
    | nil => exact absurd h (natRepr_ne_nil n)
    | cons c cs => exact ⟨c, cs, rfl⟩
  have hsplit := takeWhile_append_sat Char.isDigit (natRepr n) ':' (' ' :: t)
    (natRepr_all_digits n) (by decide)
  show (match (natRepr n ++ ':' :: ' ' :: t).takeWhile Char.isDigit,
      (natRepr n ++ ':' :: ' ' :: t).dropWhile Char.isDigit with
    | [], _ => none
    | ds, ':' :: _ => some (digitsVal ds)
    | _, _ => none) = some n
  rw [hsplit.1, hsplit.2, hcs]
  show some (digitsVal (c :: cs)) = some n
  rw [← hcs, digitsVal_natRepr]

/-! ### C8: StatsCollector pagination -/

lemma fetchFromIdx_eq_drop (files : List PrFile) (start : Nat) :
    fetchFromIdx files start = files.drop start := by
  suffices h : ∀ fuel s, files.length - s ≤ fuel → fetchFromIdx files s = files.drop s by
    exact h (files.length - start) start le_rfl
  intro fuel
  induction fuel with
  | zero =>
    intro s hs
    have hdrop : (files.drop s).length = 0 := by
      simp only [List.length_drop]
      omega
    rw [fetchFromIdx, if_pos (by simp only [List.length_take, hdrop]; omega)]
    exact (List.eq_nil_of_length_eq_zero hdrop).symm
  | succ f ih =>
    intro s hs
    rw [fetchFromIdx]
    by_cases h0 : ((files.drop s).take perPage).length = 0
    · rw [if_pos h0]
      have hdrop : (files.drop s).length = 0 := by
        simp only [List.length_take] at h0
        unfold perPage at h0
        omega
      exact (List.eq_nil_of_length_eq_zero hdrop).symm
    · rw [if_neg h0]
      by_cases h1 : ((files.drop s).take perPage).length < perPage
      · rw [if_pos h1]
        apply List.take_of_length_le
        simp only [List.length_take] at h1
        omega
      · rw [if_neg h1]
        have hlen : perPage ≤ (files.drop s).length := by
          simp only [List.length_take] at h1
          omega
        have hfuel : files.length - (s + perPage) ≤ f := by
          simp only [List.length_drop] at hlen
          unfold perPage at hlen ⊢
          omega
        rw [ih (s + perPage) hfuel]
        have hdd : files.drop (s + perPage) = (files.drop s).drop perPage := by
          rw [List.drop_drop]
        rw [hdd, List.take_append_drop]
  
/-- C8: The page-based pagination collects exactly the full file list — no
file is omitted for any result-set size — and with zero files it stops at
once and yields zero-valued statistics rather than an error. -/
theorem statsCollector_pagination_complete (files : List PrFile) :
    fetchFromIdx files 0 = files ∧
    (prStats files).filesChanged = files.length ∧
    prStats [] = { filesChanged := 0, additions := 0, deletions := 0, totalChanges := 0 } := by
  refine ⟨?_, ?_, ?_⟩
  · simpa using fetchFromIdx_eq_drop files 0
  · unfold prStats
    simp [fetchFromIdx_eq_drop]
  · unfold prStats
    simp [fetchFromIdx_eq_drop]

lemma lineScoreUnit_pos : (0 : ℝ) < lineScoreUnit := by
  unfold lineScoreUnit; norm_num

/-- The square-root argument is never negative: `⌊s/200⌋ * 200 ≤ s`. -/
lemma effortRemainder_nonneg (s : ℝ) : 0 ≤ effortRemainder s := by
  unfold effortRemainder
  have h := Int.floor_le (s / lineScoreUnit)
  have h200 : (0 : ℝ) < lineScoreUnit := lineScoreUnit_pos
  have h2 : (⌊s / lineScoreUnit⌋ : ℝ) * lineScoreUnit ≤ s / lineScoreUnit * lineScoreUnit :=
    mul_le_mul_of_nonneg_right h (le_of_lt h200)
  have h3 : s / lineScoreUnit * lineScoreUnit = s := div_mul_cancel₀ s (ne_of_gt h200)
  linarith

/-- The square-root argument is below one unit: `s - ⌊s/200⌋ * 200 ≤ 200`. -/
lemma effortRemainder_le_unit (s : ℝ) : effortRemainder s ≤ lineScoreUnit := by
  unfold effortRemainder
  have h := Int.lt_floor_add_one (s / lineScoreUnit)
  have h200 : (0 : ℝ) < lineScoreUnit := lineScoreUnit_pos
  have h2 : s / lineScoreUnit * lineScoreUnit < ((⌊s / lineScoreUnit⌋ : ℝ) + 1) * lineScoreUnit :=
    mul_lt_mul_of_pos_right h h200
  have h3 : s / lineScoreUnit * lineScoreUnit = s := div_mul_cancel₀ s (ne_of_gt h200)
  nlinarith

lemma effortOf_eq (s : ℝ) :
    effortOf s = (⌊s / lineScoreUnit⌋ : ℝ) * Real.sqrt lineScoreUnit +
      Real.sqrt (effortRemainder s) := rfl

/-- `effortOf` is nonnegative on nonnegative scores. -/
lemma effortOf_nonneg {s : ℝ} (hs : 0 ≤ s) : 0 ≤ effortOf s := by
  rw [effortOf_eq]
  have hk : (0 : ℤ) ≤ ⌊s / lineScoreUnit⌋ := by
    apply Int.floor_nonneg.mpr
    exact div_nonneg hs (le_of_lt lineScoreUnit_pos)
  have hk2 : (0 : ℝ) ≤ (⌊s / lineScoreUnit⌋ : ℝ) := by exact_mod_cast hk
  have := Real.sqrt_nonneg lineScoreUnit
  have := Real.sqrt_nonneg (effortRemainder s)
  nlinarith

/-- `effortOf` is monotone. -/
lemma effortOf_mono {s t : ℝ} (hst : s ≤ t) : effortOf s ≤ effortOf t := by
  have h200 : (0 : ℝ) < lineScoreUnit := lineScoreUnit_pos
  have hdiv : s / lineScoreUnit ≤ t / lineScoreUnit :=
    div_le_div_of_nonneg_right hst (le_of_lt h200)
  have hfloor : ⌊s / lineScoreUnit⌋ ≤ ⌊t / lineScoreUnit⌋ := Int.floor_mono hdiv
  rw [effortOf_eq, effortOf_eq]
  rcases eq_or_lt_of_le hfloor with heq | hlt
  · -- same bucket: only the remainder grows
    have hrem : effortRemainder s ≤ effortRemainder t := by
      unfold effortRemainder
      rw [heq]
      linarith
    have := Real.sqrt_le_sqrt hrem
    rw [heq]
    linarith
  · -- strictly larger bucket
    have hks : (⌊s / lineScoreUnit⌋ : ℝ) + 1 ≤ (⌊t / lineScoreUnit⌋ : ℝ) := by
      have : ⌊s / lineScoreUnit⌋ + 1 ≤ ⌊t / lineScoreUnit⌋ := hlt
      exact_mod_cast this
    have hsq : Real.sqrt (effortRemainder s) ≤ Real.sqrt lineScoreUnit :=
      Real.sqrt_le_sqrt (effortRemainder_le_unit s)
    have hsqrt_nonneg : (0 : ℝ) ≤ Real.sqrt lineScoreUnit := Real.sqrt_nonneg _
    have hremt : (0 : ℝ) ≤ Real.sqrt (effortRemainder t) := Real.sqrt_nonneg _
    nlinarith

/-- C2: The effort computed by StatsCollector is exactly
`unitCount * sqrt 200 + sqrt (lineScore - unitCount * 200)` with
`lineScore = deletions * 0.2 + additions * 1.0` and
`unitCount = ⌊lineScore / 200⌋`; at `additions = 1000, deletions = 0` it is
`5 * sqrt 200`, and at `additions = 0, deletions = 0` it is `0`. -/
theorem effort_formula_exact (additions deletions : ℕ) :
    effort additions deletions =
      (⌊((deletions : ℝ) * 0.2 + (additions : ℝ) * 1.0) / 200⌋ : ℝ) * Real.sqrt 200 +
        Real.sqrt (((deletions : ℝ) * 0.2 + (additions : ℝ) * 1.0) -
          (⌊((deletions : ℝ) * 0.2 + (additions : ℝ) * 1.0) / 200⌋ : ℝ) * 200) ∧
    effort 1000 0 = 5 * Real.sqrt 200 ∧
    effort 0 0 = 0 := by
  refine ⟨rfl, ?_, ?_⟩
  · have hls : lineScore 1000 0 = 1000 := by unfold lineScore; norm_num
    have hfl : ⌊lineScore 1000 0 / lineScoreUnit⌋ = 5 := by
      rw [hls]; unfold lineScoreUnit
      norm_num
    unfold effort effortOf
    rw [hls] at hfl ⊢
    rw [hfl]
    unfold lineScoreUnit
    norm_num
  · have hls : lineScore 0 0 = 0 := by unfold lineScore; norm_num
    have hfl : ⌊lineScore 0 0 / lineScoreUnit⌋ = 0 := by
      rw [hls]; unfold lineScoreUnit
      norm_num
    unfold effort effortOf
    rw [hls] at hfl ⊢
    rw [hfl]
    simp

/-- C4: Effort is a deterministic function of (additions, deletions),
nonnegative, and monotone nondecreasing in additions with deletions fixed
and in deletions with additions fixed. -/
theorem effort_deterministic_nonneg_mono (a d a' d' : ℕ) :
    (a = a' → d = d' → effort a d = effort a' d') ∧
    0 ≤ effort a d ∧
    (a ≤ a' → effort a d ≤ effort a' d) ∧
    (d ≤ d' → effort a d ≤ effort a d') := by
  have hls_nonneg : (0 : ℝ) ≤ lineScore a d := by
    unfold lineScore
    positivity
  refine ⟨?_, ?_, ?_, ?_⟩
  · rintro rfl rfl; rfl
  · exact effortOf_nonneg hls_nonneg
  · intro h
    apply effortOf_mono
    unfold lineScore
    have : (a : ℝ) ≤ (a' : ℝ) := by exact_mod_cast h
    nlinarith
  · intro h
    apply effortOf_mono
    unfold lineScore
    have : (d : ℝ) ≤ (d' : ℝ) := by exact_mod_cast h
    nlinarith

/-- Witness for C4: concrete instantiation at (3,4) against (10,4) and
(3,9). -/
theorem effort_deterministic_nonneg_mono_witness :
    0 ≤ effort 3 4 ∧ effort 3 4 ≤ effort 10 4 ∧ effort 3 4 ≤ effort 3 9 :=
  ⟨(effort_deterministic_nonneg_mono 3 4 10 9).2.1,
   (effort_deterministic_nonneg_mono 3 4 10 9).2.2.1 (by norm_num),
   (effort_deterministic_nonneg_mono 3 4 10 9).2.2.2 (by norm_num)⟩

/-! ### C6: project resolution -/

/-- C6: Project resolution applies the matchers in strict order — exact
title match, else case-insensitive title match, else substring match, each
taking the first matching project in listing order — and fails with the
project-not-found error when no matcher succeeds on a nonempty listing.
The matched project is returned whether or not it is closed: `closed` is
consulted by no matcher and by no error branch (a closed match only logs a
warning, line 81–83). -/
theorem findProject_matcher_chain (projects : List Project) (name : List Char) :
    (∀ p, projects.find? (fun q => decide (q.title = name)) = some p →
      findProject projects name = Except.ok p) ∧
    (projects.find? (fun q => decide (q.title = name)) = none →
      ∀ p, projects.find? (fun q => decide (lowerChars q.title = lowerChars name)) = some p →
        findProject projects name = Except.ok p) ∧
    (projects.find? (fun q => decide (q.title = name)) = none →
      projects.find? (fun q => decide (lowerChars q.title = lowerChars name)) = none →
      ∀ p, projects.find? (fun q => jsIncludes (lowerChars name) (lowerChars q.title)) = some p →
        findProject projects name = Except.ok p) ∧
    (projects ≠ [] →
      projects.find? (fun q => decide (q.title = name)) = none →
      projects.find? (fun q => decide (lowerChars q.title = lowerChars name)) = none →
      projects.find? (fun q => jsIncludes (lowerChars name) (lowerChars q.title)) = none →
      findProject projects name = Except.error FindProjectErr.notFound) := by
  have hne : ∀ (p : Project) (f : Project → Bool), projects.find? f = some p →
      projects.isEmpty = false := by
    intro p f hf
    cases projects with
    | nil => simp at hf
    | cons a l => rfl
  refine ⟨?_, ?_, ?_, ?_⟩
  · intro p h1
    unfold findProject
    rw [hne p _ h1]
    simp only [Bool.false_eq_true, if_false, h1]
  · intro h1 p h2
    unfold findProject
    rw [hne p _ h2]
    simp only [Bool.false_eq_true, if_false, h1, h2]
  · intro h1 h2 p h3
    unfold findProject
    rw [hne p _ h3]
    simp only [Bool.false_eq_true, if_false, h1, h2, h3]
  · intro hnil h1 h2 h3
    unfold findProject
    have : projects.isEmpty = false := by
      cases projects with
      | nil => exact absurd rfl hnil
      | cons a l => rfl
    rw [this]
    simp only [Bool.false_eq_true, if_false, h1, h2, h3]

/-- Witness for C6: a closed project matched case-insensitively is still
returned, and a listing with no match yields the not-found error. -/
theorem findProject_matcher_chain_witness :
    findProject [{ id := 1, title := "Efforts".data, number := 4, closed := true }] "efforts".data =
      Except.ok { id := 1, title := "Efforts".data, number := 4, closed := true } ∧
    findProject [{ id := 2, title := "Roadmap".data, number := 5, closed := false }] "efforts".data =
      Except.error FindProjectErr.notFound :=
  ⟨(findProject_matcher_chain
      [{ id := 1, title := "Efforts".data, number := 4, closed := true }] "efforts".data).2.1
      (by decide) _ (by decide),
   (findProject_matcher_chain
      [{ id := 2, title := "Roadmap".data, number := 5, closed := false }] "efforts".data).2.2.2
      (by decide) (by decide) (by decide) (by decide)⟩

/-! ### C5: the Step C.1 matching condition -/

/-- C5: A scanned project item matches exactly when its title parses as
`PR #<number>:` with the parsed number equal to the target PR number and
its body carries a `**Repository:** <name>` capture equal to the target
repository; an item whose body lacks the repository marker is never
matched, even when its parsed PR number equals the target. -/
theorem itemMatches_iff_spec (item : ProjectItem) (n : Nat) (repo : List Char) :
    (itemMatches item n repo = true ↔ specItemMatch item n repo) ∧
    (∀ iss, item.content = some iss → issueRepoOf iss.body = none →
      itemMatches item n repo = false) := by
  obtain ⟨iid, content⟩ := item
  have main : ∀ iss, itemMatches ⟨iid, some iss⟩ n repo = true ↔
      (parsePRTitle iss.title = some n ∧ issueRepoOf iss.body = some repo) := by
    intro iss
    simp only [itemMatches]
    constructor
    · intro h
      split at h
      · exact absurd h (by simp)
      · split at h
        · rename_i k hk
          simp only [Bool.and_eq_true, decide_eq_true_eq] at h
          exact ⟨by rw [hk, h.1], h.2⟩
        · exact absurd h (by simp)
    · rintro ⟨hparse, hrepo⟩
      have hne : iss.title.isEmpty = false := by
        cases ht : iss.title with
        | nil =>
          rw [ht] at hparse
          simp [parsePRTitle] at hparse
        | cons c cs => simp [ht]
      rw [hne]
      simp only [Bool.false_eq_true, if_false]
      rw [hparse]
      simp [hrepo]
  constructor
  · cases content with
    | none =>
      simp only [itemMatches, specItemMatch]
      constructor
      · intro h
        exact absurd h (by simp)
      · rintro ⟨iss, hiss, _⟩
        exact absurd hiss (by simp)
    | some iss =>
      rw [main iss]
      constructor
      · rintro ⟨hparse, hrepo⟩
        exact ⟨iss, rfl, hparse, hrepo⟩
      · rintro ⟨iss2, hiss2, hparse, hrepo⟩
        injection hiss2 with h
        subst h
        exact ⟨hparse, hrepo⟩
  · intro iss hiss hnone
    have : content = some iss := hiss
    subst this
    simp only [itemMatches]
    split
    · rfl
    · split
      · simp [hnone]
      · rfl

/-- Witness for C5: an item whose body has no `**Repository:**` marker is
not matched although its title parses to the target number; one with the
marker is matched. -/
theorem itemMatches_iff_spec_witness :
    itemMatches ⟨9, some ⟨1, 5, "PR #42: fix".data, "no marker here".data, []⟩⟩
      42 "widgets".data = false ∧
    itemMatches ⟨9, some ⟨1, 5, "PR #42: fix".data, "**Repository:** widgets\nrest".data, []⟩⟩
      42 "widgets".data = true :=
  ⟨(itemMatches_iff_spec ⟨9, some ⟨1, 5, "PR #42: fix".data, "no marker here".data, []⟩⟩
      42 "widgets".data).2 _ rfl (by decide),
   (itemMatches_iff_spec ⟨9, some ⟨1, 5, "PR #42: fix".data, "**Repository:** widgets\nrest".data, []⟩⟩
      42 "widgets".data).1.mpr ⟨_, rfl, by decide, by decide⟩⟩

/-! ### C9: the cursor loop has no non-advancing-cursor guard -/

/-- C9 (evidence): against a service that never signals completion and
always answers with the same non-advancing cursor, the `while (hasNextPage)`
loop reaches `stuckState` after its first iteration and then maps
`stuckState` to itself — it neither detects the non-advancing cursor nor
aborts, so it iterates forever. -/
theorem cursorLoop_stuck_on_nonadvancing_cursor :
    cursorLoopStep stuckService
      { allItems := [], cursor := none, hasNextPage := true } 7 ['r'] = Sum.inr stuckState ∧
    cursorLoopStep stuckService stuckState 7 ['r'] = Sum.inr stuckState :=
  ⟨rfl, rfl⟩

/-! ### C10: a listing error behaves like "no match" -/

/-- C10: If the GraphQL listing throws at any point during Step C.1 (after
any run of match-free full pages), `findExistingIssueInProject` returns
`null`, the very result of an empty listing, so `findOrCreateIssue`
behaves exactly as if no project-attached issue existed: it proceeds to
the repository search, and when that also finds nothing it creates a new
issue. -/
theorem listingError_behaves_as_noMatch (okPages : List ItemsPage)
    (rest : List (Except Unit ItemsPage)) (s : GhState) (pr : PrInput)
    (stats : ChangeStats) (eT wT : List Char)
    (hnomatch : ∀ pg ∈ okPages, ∀ it ∈ pg.nodes, itemMatches it pr.number pr.repo = false)
    (hnext : ∀ pg ∈ okPages, pg.hasNextPage = true) :
    findExistingIssueInProject (okPages.map Except.ok ++ Except.error () :: rest)
      pr.number pr.repo = none ∧
    findOrCreateIssue s pr stats eT wT (okPages.map Except.ok ++ Except.error () :: rest) =
      findOrCreateIssue s pr stats eT wT [Except.ok { nodes := [], hasNextPage := false }] ∧
    (searchIssue s pr.number = none →
      (findOrCreateIssue s pr stats eT wT
        (okPages.map Except.ok ++ Except.error () :: rest)).2.isNew = true) := by
  have hnone : findExistingIssueInProject (okPages.map Except.ok ++ Except.error () :: rest)
      pr.number pr.repo = none := by
    induction okPages with
    | nil => rfl
    | cons pg pgs ih =>
      have hfind : pg.nodes.find? (fun it => itemMatches it pr.number pr.repo) = none := by
        rw [List.find?_eq_none]
        intro it hit
        simp [hnomatch pg (by simp) it hit]
      simp only [List.map_cons, List.cons_append, findExistingIssueInProject, hfind]
      rw [hnext pg (by simp)]
      simp only [if_true]
      exact ih (fun q hq => hnomatch q (by simp [hq])) (fun q hq => hnext q (by simp [hq]))
  have hruns : findOrCreateIssue s pr stats eT wT
      (okPages.map Except.ok ++ Except.error () :: rest) =
      findOrCreateIssue s pr stats eT wT [Except.ok { nodes := [], hasNextPage := false }] := by
    unfold findOrCreateIssue
    rw [hnone]
    rfl
  refine ⟨hnone, hruns, ?_⟩
  intro hsearch
  unfold findOrCreateIssue
  rw [hnone, hsearch]

/-- Witness for C10: one full match-free page, then a thrown listing error,
starting from the empty state: the listing result is `null` and the run
creates a new issue. -/
theorem listingError_behaves_as_noMatch_witness :
    findExistingIssueInProject
      [Except.ok { nodes := [], hasNextPage := true }, Except.error ()] 3 "r1".data = none ∧
    (findOrCreateIssue emptyGhState ⟨3, "t".data, "u".data, "a".data, "r1".data⟩
      ⟨0, 0, 0, 0⟩ "0".data "1".data
      [Except.ok { nodes := [], hasNextPage := true }, Except.error ()]).2.isNew = true := by
  have h := listingError_behaves_as_noMatch [{ nodes := [], hasNextPage := true }] []
    emptyGhState ⟨3, "t".data, "u".data, "a".data, "r1".data⟩ ⟨0, 0, 0, 0⟩ "0".data "1".data
    (by decide) (by decide)
  exact ⟨h.1, h.2.2 (by decide)⟩

/-! ### C7: every branch upserts title, body and assignee -/

lemma findExisting_single_mem (nodes : List ProjectItem) (n : Nat) (repo : List Char)
    (iss : Issue) (itemId : Nat)
    (h : findExistingIssueInProject [Except.ok { nodes := nodes, hasNextPage := false }] n repo =
      some (iss, itemId)) :
    ∃ it ∈ nodes, it.content = some iss ∧ it.itemId = itemId := by
  simp only [findExistingIssueInProject] at h
  split at h
  · rename_i it hfind
    cases hc : it.content with
    | none => rw [hc] at h; simp at h
    | some i =>
      rw [hc] at h
      have h2 : (i, it.itemId) = (iss, itemId) := by simpa using h
      refine ⟨it, List.mem_of_find?_eq_some hfind, ?_, ?_⟩
      · rw [hc, ((Prod.mk.injEq ..).mp h2).1]
      · exact ((Prod.mk.injEq ..).mp h2).2
  · simp at h

lemma mem_issues_of_listProjectItems (s : GhState) (it : ProjectItem) (iss : Issue)
    (hit : it ∈ listProjectItems s) (hc : it.content = some iss) : iss ∈ s.issues := by
  unfold listProjectItems at hit
  rw [List.mem_map] at hit
  obtain ⟨link, hlink, rfl⟩ := hit
  simp only at hc
  exact List.mem_of_find?_eq_some hc

lemma mem_issues_of_searchIssue (s : GhState) (n : Nat) (iss : Issue)
    (h : searchIssue s n = some iss) : iss ∈ s.issues := by
  unfold searchIssue at h
  cases hl : s.issues.filter (fun i => jsIncludes (searchNeedle n) i.title) with
  | nil => rw [hl] at h; simp at h
  | cons a t =>
    rw [hl] at h
    simp only [List.head?_cons] at h
    have h2 : a = iss := by injection h
    subst h2
    have hmem : a ∈ s.issues.filter (fun i => jsIncludes (searchNeedle n) i.title) := by
      rw [hl]
      exact List.mem_cons_self _ _
    exact (List.mem_filter.mp hmem).1

lemma upd_mem_updateIssue (s : GhState) (i0 : Issue) (hmem : i0 ∈ s.issues)
    (title body : List Char) (assignees : List (List Char)) :
    ({ i0 with title := title, body := body, assignees := assignees } : Issue) ∈
      (updateIssue s i0.number title body assignees).issues := by
  unfold updateIssue
  simp only
  have h := List.mem_map_of_mem
    (fun i => if i.number = i0.number then
      ({ i with title := title, body := body, assignees := assignees } : Issue) else i) hmem
  simpa using h

/-- C7: In each of the three find-or-create branches — found among the
project items, found by the repository search, or newly created — the
resulting state contains an issue carrying the returned issue number whose
title is `PR #<number>: <PR title>`, whose body is the canonical
`createIssueBody` template, and whose assignees are exactly the PR author:
every run upserts title, body and assignee. -/
theorem findOrCreateIssue_upserts (s : GhState) (pr : PrInput) (stats : ChangeStats)
    (eT wT : List Char) :
    ∃ iss,
      iss ∈ (findOrCreateIssue s pr stats eT wT
          [Except.ok { nodes := listProjectItems s, hasNextPage := false }]).1.issues ∧
      iss.number = (findOrCreateIssue s pr stats eT wT
          [Except.ok { nodes := listProjectItems s, hasNextPage := false }]).2.issueNumber ∧
      iss.title = mkIssueTitle pr.number pr.title ∧
      iss.body = createIssueBody pr.number pr.url pr.repo pr.author stats eT wT ∧
      iss.assignees = [pr.author] := by
  cases hfind : findExistingIssueInProject
      [Except.ok { nodes := listProjectItems s, hasNextPage := false }] pr.number pr.repo with
  | some found =>
    obtain ⟨it, hit, hc, hid⟩ := findExisting_single_mem _ _ _ found.1 found.2
      (by rw [hfind])
    have hmem := mem_issues_of_listProjectItems s it found.1 hit hc
    refine ⟨{ found.1 with
        title := mkIssueTitle pr.number pr.title,
        body := createIssueBody pr.number pr.url pr.repo pr.author stats eT wT,
        assignees := [pr.author] }, ?_, ?_, rfl, rfl, rfl⟩
    · simp only [findOrCreateIssue, hfind]
      exact upd_mem_updateIssue s found.1 hmem _ _ _
    · simp only [findOrCreateIssue, hfind]
  | none =>
    cases hsearch : searchIssue s pr.number with
    | some repoIssue =>
      have hmem := mem_issues_of_searchIssue s pr.number repoIssue hsearch
      refine ⟨{ repoIssue with
          title := mkIssueTitle pr.number pr.title,
          body := createIssueBody pr.number pr.url pr.repo pr.author stats eT wT,
          assignees := [pr.author] }, ?_, ?_, rfl, rfl, rfl⟩
      · simp only [findOrCreateIssue, hfind, hsearch]
        exact upd_mem_updateIssue s repoIssue hmem _ _ _
      · simp only [findOrCreateIssue, hfind, hsearch]
    | none =>
      refine ⟨⟨s.nextIssueId, s.nextIssueNumber, mkIssueTitle pr.number pr.title,
        createIssueBody pr.number pr.url pr.repo pr.author stats eT wT,
        [pr.author]⟩, ?_, ?_, rfl, rfl, rfl⟩
      · simp only [findOrCreateIssue, hfind, hsearch, createIssue]
        exact List.mem_append_right _ (List.mem_singleton.mpr rfl)
      · simp only [findOrCreateIssue, hfind, hsearch, createIssue]

/-! ### C1: at most one tracking issue and one project item -/

lemma itemMatches_canonical (itemId idv num n : Nat) (t body repo : List Char)
    (assg : List (List Char)) (hbody : issueRepoOf body = some repo) :
    itemMatches ⟨itemId, some ⟨idv, num, mkIssueTitle n t, body, assg⟩⟩ n repo = true := by
  have h1 : (mkIssueTitle n t).isEmpty = false := rfl
  simp only [itemMatches, h1, Bool.false_eq_true, if_false, parse_mkIssueTitle, hbody]
  simp

/-- C1: Starting from a state with no issues and no items, one run creates
exactly one tracking issue for the (repository, PR number) key and exactly
one project item carrying it; a second identical run locates that issue and
its item through Step C.1 and leaves the state exactly unchanged — so any
number of repeated runs leaves at most one TrackingIssue and at most one
ProjectItem. (`hbody` records that the canonical body round-trips through
the repository marker, which the concrete witness checks by computation.) -/
theorem runSync_idempotent_at_most_one (pr : PrInput) (stats : ChangeStats)
    (eT wT : List Char)
    (hbody : issueRepoOf (createIssueBody pr.number pr.url pr.repo pr.author stats eT wT) =
      some pr.repo) :
    trackingIssueCount (runSync emptyGhState pr stats eT wT true) pr.number pr.repo = 1 ∧
    trackingItemCount (runSync emptyGhState pr stats eT wT true) pr.number pr.repo = 1 ∧
    (∃ found, findExistingIssueInProject
      [singlePage (listProjectItems (runSync emptyGhState pr stats eT wT true))]
      pr.number pr.repo = some found) ∧
    runSync (runSync emptyGhState pr stats eT wT true) pr stats eT wT true =
      runSync emptyGhState pr stats eT wT true := by
  have hs1 : runSync emptyGhState pr stats eT wT true = stateAfterFirstRun pr stats eT wT := rfl
  rw [hs1]
  have hitems : listProjectItems (stateAfterFirstRun pr stats eT wT) =
      [⟨0, some (firstIssue pr stats eT wT)⟩] := rfl
  have hm : itemMatches ⟨0, some (firstIssue pr stats eT wT)⟩ pr.number pr.repo = true :=
    itemMatches_canonical 0 0 1 pr.number pr.title _ pr.repo [pr.author] hbody
  have hfind1 : findExistingIssueInProject
      [singlePage (listProjectItems (stateAfterFirstRun pr stats eT wT))]
      pr.number pr.repo = some (firstIssue pr stats eT wT, 0) := by
    rw [hitems]
    simp [singlePage, findExistingIssueInProject, List.find?, hm]
  refine ⟨?_, ?_, ⟨_, hfind1⟩, ?_⟩
  · unfold trackingIssueCount stateAfterFirstRun firstIssue
    simp [isTrackingIssue, parse_mkIssueTitle, hbody]
  · unfold trackingItemCount
    rw [hitems]
    simp [hm]
  · have hFOC : findOrCreateIssue (stateAfterFirstRun pr stats eT wT) pr stats eT wT
        [singlePage (listProjectItems (stateAfterFirstRun pr stats eT wT))] =
        (stateAfterFirstRun pr stats eT wT,
         { issueId := 0, issueNumber := 1, itemId := some 0, isNew := false }) := by
      have hfind2 : findExistingIssueInProject
          [singlePage (listProjectItems (stateAfterFirstRun pr stats eT wT))]
          pr.number pr.repo = some (firstIssue pr stats eT wT, 0) := hfind1
      simp only [findOrCreateIssue, hfind2]
      rfl
    have hrw : runSync (stateAfterFirstRun pr stats eT wT) pr stats eT wT true =
        (addIssueToProject (findOrCreateIssue (stateAfterFirstRun pr stats eT wT) pr stats eT wT
          [singlePage (listProjectItems (stateAfterFirstRun pr stats eT wT))]).1
          (findOrCreateIssue (stateAfterFirstRun pr stats eT wT) pr stats eT wT
            [singlePage (listProjectItems (stateAfterFirstRun pr stats eT wT))]).2.issueId
          (findOrCreateIssue (stateAfterFirstRun pr stats eT wT) pr stats eT wT
            [singlePage (listProjectItems (stateAfterFirstRun pr stats eT wT))]).2.itemId
          true).1 := rfl
    rw [hrw, hFOC]
    rfl

/-- Witness for C1: a concrete PR (number 42, repository `widgets`): one
run from the empty state yields exactly one tracking issue and one project
item, and the second run is a no-op on the state. -/
theorem runSync_idempotent_at_most_one_witness :
    trackingIssueCount (runSync emptyGhState
      ⟨42, "Fix".data, "http://x".data, "alice".data, "widgets".data⟩
      ⟨1, 2, 3, 5⟩ "7.07".data "1".data true) 42 "widgets".data = 1 ∧
    trackingItemCount (runSync emptyGhState
      ⟨42, "Fix".data, "http://x".data, "alice".data, "widgets".data⟩
      ⟨1, 2, 3, 5⟩ "7.07".data "1".data true) 42 "widgets".data = 1 ∧
    runSync (runSync emptyGhState
        ⟨42, "Fix".data, "http://x".data, "alice".data, "widgets".data⟩
        ⟨1, 2, 3, 5⟩ "7.07".data "1".data true)
      ⟨42, "Fix".data, "http://x".data, "alice".data, "widgets".data⟩
      ⟨1, 2, 3, 5⟩ "7.07".data "1".data true =
    runSync emptyGhState
      ⟨42, "Fix".data, "http://x".data, "alice".data, "widgets".data⟩
      ⟨1, 2, 3, 5⟩ "7.07".data "1".data true :=
  ⟨(runSync_idempotent_at_most_one
      ⟨42, "Fix".data, "http://x".data, "alice".data, "widgets".data⟩
      ⟨1, 2, 3, 5⟩ "7.07".data "1".data (by decide)).1,
   (runSync_idempotent_at_most_one
      ⟨42, "Fix".data, "http://x".data, "alice".data, "widgets".data⟩
      ⟨1, 2, 3, 5⟩ "7.07".data "1".data (by decide)).2.1,
   (runSync_idempotent_at_most_one
      ⟨42, "Fix".data, "http://x".data, "alice".data, "widgets".data⟩
      ⟨1, 2, 3, 5⟩ "7.07".data "1".data (by decide)).2.2.2⟩

end BidhubSync
